import Mathlib

/-!
Verification development for the MCP agent plugin: a shallow embedding of
`src/utils/mcp_client.py` (the SSE and streamable-HTTP MCP protocol clients
and the `McpClients` pool) and of `src/strategies/function_calling.py`
(the function-calling agent orchestration loop), together with theorems
settling the specified properties of those components.
-/

/-! ## URLs and the SSE listener (`McpSseClient._listen_messages`, mcp_client.py lines 64-101)

A URL is modelled by the pieces `urlparse` exposes and the origin check uses:
`scheme`, `netloc` and the remaining path/query text.  The data of an SSE
`endpoint` event is either an absolute URL or a relative reference;
`urljoin(self.url, sse.data)` keeps the base origin for a relative reference
and replaces the whole URL for an absolute one. -/

structure SUrl where
  scheme : String
  netloc : String
  path : String
deriving DecidableEq, Repr

inductive EndpointData where
  | absolute (u : SUrl)
  | relative (p : String)
deriving DecidableEq, Repr

/-- Modelling of `urljoin(self.url, sse.data)` as used at mcp_client.py line 81. -/
def urljoinData (base : SUrl) : EndpointData → SUrl
  | .absolute u => u
  | .relative p => ⟨base.scheme, base.netloc, p⟩

/-- The origin comparison of mcp_client.py lines 84-87:
`url_parsed.netloc != endpoint_parsed.netloc or url_parsed.scheme != endpoint_parsed.scheme`. -/
def originMismatch (base endpoint : SUrl) : Bool :=
  (base.netloc != endpoint.netloc) || (base.scheme != endpoint.scheme)

/-- The `McpSseClient` fields touched by the listener thread and read by
`connect()` / `send_message()`: `endpoint_url`, `_connected`, `_error_event`
and `_thread_exception` (mcp_client.py lines 52-61). -/
structure ListenerState where
  endpointUrl : Option SUrl
  connected : Bool
  errorEvent : Bool
  threadExc : Option String
deriving DecidableEq, Repr

/-- State right after `__init__` set the fields up (mcp_client.py lines 52-61). -/
def initListenerState : ListenerState :=
  ⟨none, false, false, none⟩

/-- The successive states of the listener thread while it processes one
`endpoint` SSE event, indexed by the number of atomic writes performed.
The listener body (mcp_client.py lines 80-90 with the handler at 98-101)
performs, in order:
* substep 1: `self.endpoint_url = urljoin(self.url, sse.data)` (line 81);
* substep 2: `self._connected.set()` (line 83);
* substep 3: the origin check (lines 84-90); on mismatch the raised
  `ValueError` reaches the handler, which records `_thread_exception` and
  sets `_error_event` (lines 98-101); on a matching origin nothing changes.
Each index is an observation point available to the concurrently running
`connect()` loop. -/
def endpointSub (base : SUrl) (d : EndpointData) (s : ListenerState) : Nat → ListenerState
  | 0 => s
  | 1 => ⟨some (urljoinData base d), s.connected, s.errorEvent, s.threadExc⟩
  | 2 => ⟨some (urljoinData base d), true, s.errorEvent, s.threadExc⟩
  | _ + 3 =>
    if originMismatch base (urljoinData base d) then
      ⟨some (urljoinData base d), true, true,
        some "Endpoint origin does not match connection origin"⟩
    else
      ⟨some (urljoinData base d), true, s.errorEvent, s.threadExc⟩

/-- What one pass of the `connect()` polling loop (mcp_client.py lines
137-147) does when it observes a listener state: it first checks
`_error_event` (raising the recorded exception), then `_connected`
(returning normally), and otherwise keeps waiting. -/
inductive ConnectObs where
  | raised
  | returnedOk
  | waiting
deriving DecidableEq, Repr

def connectObserve (s : ListenerState) : ConnectObs :=
  if s.errorEvent then .raised
  else if s.connected then .returnedOk
  else .waiting

/-- The target-selection part of `send_message` (mcp_client.py lines
103-117): with no announced endpoint it raises (a `ConnectionError` if the
listener died, else a `RuntimeError`); with an announced endpoint it POSTs
the message there, and a message without an `id` then returns the empty
dict, i.e. succeeds.  The returned URL is the POST target. -/
def sendMessageTarget (s : ListenerState) : Except String SUrl :=
  match s.endpointUrl with
  | none =>
    match s.threadExc with
    | some e => .error ("ConnectionError: MCP Server connection failed: " ++ e)
    | none => .error "RuntimeError: Please call connect() first"
  | some ep => .ok ep

/-! ## The response queue drain (`McpSseClient.send_message`, mcp_client.py lines 118-131)

Queued server messages only matter through their optional `id`; the payload
is kept opaque.  The drain loop pops from the front of the FIFO queue,
returns the first message whose `id` equals the awaited request id, and
puts every other popped message back at the back of the queue.  `drainAux`
accumulates the requeued messages; when the match is found at position `k`,
the queue left behind is the part after the match followed by the requeued
part — exactly what `Queue.get_nowait` / `Queue.put` produce.  When no
message matches, the real loop never returns (it keeps respinning on the
requeued messages until the listener enqueues a match); `none` models that
no value is produced by the drain. -/

structure JMsg where
  msgId : Option Nat
  payload : String
deriving DecidableEq, Repr

/-- The check `"id" in message and message["id"] == message_id` (mcp_client.py line 126). -/
def matchesId (m : JMsg) (mid : Nat) : Bool :=
  m.msgId == some mid

def drainAux (mid : Nat) : List JMsg → List JMsg → Option (JMsg × List JMsg)
  | [], _ => none
  | m :: rest, requeued =>
    if matchesId m mid then some (m, rest ++ requeued)
    else drainAux mid rest (requeued ++ [m])

/-- One drain pass of `send_message` over the current queue contents. -/
def drainQueue (q : List JMsg) (mid : Nat) : Option (JMsg × List JMsg) :=
  drainAux mid q []

/-! ## JSON-RPC request ids for both transports

`McpSseClient` builds every id-bearing request with `"id": self._request_id`
(mcp_client.py lines 161, 187, 199) and increments `_request_id` when the
matching response is returned (line 127); the `notifications/initialized`
message carries no id and causes no increment.  `McpStreamableHttpClient`
hardcodes `"id": 0` in `initialize`, `"id": 1` in `list_tools` and
`"id": 2` in `call_tool` (lines 250, 276, 289). -/

structure JsonRpcReq where
  reqId : Option Nat
  method : String
deriving DecidableEq, Repr

inductive RpcOp where
  | initializeOp
  | listToolsOp
  | callToolOp
deriving DecidableEq, Repr

/-- The requests one `McpSseClient` operation sends when every send
completes with a matched response, together with the counter afterwards:
`initialize` sends the id-bearing handshake plus the id-free notification;
`list_tools` and `call_tool` send one id-bearing request each.  The counter
increment models mcp_client.py line 127. -/
def sseOpRequests (c : Nat) : RpcOp → List JsonRpcReq × Nat
  | .initializeOp =>
    ([⟨some c, "initialize"⟩, ⟨none, "notifications/initialized"⟩], c + 1)
  | .listToolsOp => ([⟨some c, "tools/list"⟩], c + 1)
  | .callToolOp => ([⟨some c, "tools/call"⟩], c + 1)

/-- The request trace of a sequence of successfully completed
`McpSseClient` operations starting from counter `c` (`_request_id = 0`
at construction, mcp_client.py line 54). -/
def sseTrace (c : Nat) : List RpcOp → List JsonRpcReq
  | [] => []
  | op :: ops =>
    let (reqs, c') := sseOpRequests c op
    reqs ++ sseTrace c' ops

/-- The ids actually assigned by a sequence of SSE-client operations. -/
def sseAssignedIds (ops : List RpcOp) : List Nat :=
  (sseTrace 0 ops).filterMap JsonRpcReq.reqId

/-- The request one `McpStreamableHttpClient` operation sends: ids are the
per-method constants of mcp_client.py lines 250, 276 and 289. -/
def streamableOpRequest : RpcOp → JsonRpcReq
  | .initializeOp => ⟨some 0, "initialize"⟩
  | .listToolsOp => ⟨some 1, "tools/list"⟩
  | .callToolOp => ⟨some 2, "tools/call"⟩

/-- The ids assigned by a sequence of streamable-HTTP-client operations
(the id-free `notifications/initialized` is omitted; it assigns no id). -/
def streamableAssignedIds (ops : List RpcOp) : List Nat :=
  ops.filterMap fun op => (streamableOpRequest op).reqId

/-! ## `close()` for both clients and for the pool

`McpSseClient.close` (mcp_client.py lines 149-156) sets `should_stop`,
closes the HTTP client and joins the listener thread, all inside a
`try` whose handler re-raises the failure wrapped in a new `Exception`;
`McpStreamableHttpClient.close` (lines 227-231) does the same around
`self.client.close()`.  The outcome of the underlying teardown is passed
in as an `Except`.  `McpClients.close` (lines 371-376) calls `close()` on
every owned client, catching and logging each failure. -/

def mcpSseClose (name : String) (listenThreadAlive : Option Bool)
    (clientClose : Except String Unit) : Except String Unit :=
  match clientClose with
  | .ok () =>
    match listenThreadAlive with
    | some true => .ok ()
    | _ => .ok ()
  | .error e => .error (name ++ " - MCP Server connection close failed: " ++ e)

def mcpStreamableClose (name : String)
    (clientClose : Except String Unit) : Except String Unit :=
  match clientClose with
  | .ok () => .ok ()
  | .error e => .error (name ++ " - MCP Server connection close failed: " ++ e)

/-- Pool close, `McpClients.close`: every owned client's `close()` is attempted; each
failure is logged (collected here) and never propagated, so the pool-level
close is a total function that always completes. -/
def mcpClientsClose (closes : List (Except String Unit)) : List String :=
  match closes with
  | [] => []
  | .ok () :: rest => mcpClientsClose rest
  | .error e :: rest => e :: mcpClientsClose rest

/-! ## `McpClients.execute_tool` (mcp_client.py lines 346-369)

`self._tools` maps each server name to its discovered tool list;
`execute_tool` rebuilds `tool_clients` (tool name → owning client, later
entries overwriting earlier ones), looks up the owner with `.get` — which
yields `None` for an unknown tool — and calls `client.call_tool` inside a
`try` that converts any exception into the string
`"Error executing tool: " + str(e)`.  Calling `call_tool` on `None`
raises an `AttributeError` whose text mentions only `NoneType`, modelled
by `noneTypeAttrMsg`. -/

def noneTypeAttrMsg : String :=
  "AttributeError: NoneType object has no attribute call_tool"

/-- The `tool_clients` dict built at mcp_client.py lines 349-353, as an
association list in insertion order (later entries overwrite earlier ones
when looked up, matching dict assignment). -/
def toolClients (tools : List (String × List String))
    (clientNames : List String) : List (String × String) :=
  match tools with
  | [] => []
  | (server, ts) :: rest =>
    (if clientNames.contains server then ts.map fun t => (t, server) else [])
      ++ toolClients rest clientNames

/-- Owner lookup `tool_clients.get(tool_name)`: dict lookup where the last assignment
wins, i.e. the last matching entry of the association list. -/
def lookupOwner (tools : List (String × List String))
    (clientNames : List String) (toolName : String) : Option String :=
  ((toolClients tools clientNames).reverse.find? fun p => p.1 == toolName).map
    fun p => p.2

/-- Result text of `McpClients.execute_tool`.  `callTool server name` is the
outcome of the owning client's `call_tool` (an exception is an `error`). -/
def executeTool (tools : List (String × List String))
    (clientNames : List String)
    (callTool : String → String → Except String String)
    (toolName : String) : String :=
  match lookupOwner tools clientNames toolName with
  | none => "Error executing tool: " ++ noneTypeAttrMsg
  | some server =>
    match callTool server toolName with
    | .ok r => "Tool execution result: " ++ r
    | .error e => "Error executing tool: " ++ e

/-! ## The function-calling orchestrator (`FunctionCallingAgentStrategy._invoke`)

function_calling.py lines 107-117 and 173-203 drive the round loop:
`iteration_step` starts at 1, `function_call_state` starts `True`, the loop
runs `while function_call_state and iteration_step <= max_iteration_steps`,
each round first clears `function_call_state` and sets it again only when
the model output contains tool calls.  The per-round model output is
abstracted as an oracle from the round number to the extracted tool calls.

Lines 263-331 resolve and dispatch every extracted tool call:
`tool_instance = tool_instances.get(name)` looks the name up in the local
registry and `mcp_tool_instance = mcp_tool_instances.get(name)` in the MCP
catalog (line 266; the identifiers are pinned by lines 92 and 290); a name
in neither produces the synthetic error response (lines 279-285); otherwise
the MCP branch is taken whenever `mcp_tool_instance` is set (line 290) —
inside it, if `servers_config.get(name)` yields a config with a `"command"`
key the call is executed by `subprocess.run` (lines 294-316), else by
`mcp_clients.execute_tool` (lines 319-322); only when the name is not in
the MCP catalog is the local tool invoked through `self.session.tool.invoke`
(lines 324-356).  Every exception inside the dispatch is converted to the
string `"tool invoke error: ..."` (lines 357-358). -/

structure ToolCall where
  callId : String
  name : String
  args : String
deriving DecidableEq, Repr

/-- The registries the dispatch consults: the local tool names
(`tool_instances`, line 76), the MCP catalog names (`mcp_tool_instances`,
line 92) and, for each server-config key, whether its entry contains a
`"command"` field (lines 294-295). -/
structure ToolEnv where
  localNames : List String
  mcpNames : List String
  serversCfg : List (String × Bool)
deriving DecidableEq, Repr

/-- The lookup `server_config = servers_config.get(tool_call_name)` followed by
`if server_config and "command" in server_config` (lines 294-295). -/
def cfgHasCommand (cfg : List (String × Bool)) (name : String) : Bool :=
  match cfg.find? fun p => p.1 == name with
  | some p => p.2
  | none => false

/-- Where one tool call's execution is sent (lines 263-331). -/
inductive DispatchTarget where
  | noTool
  | mcpSubprocess
  | mcpExecuteTool
  | localTool
deriving DecidableEq, Repr

def dispatchTarget (env : ToolEnv) (name : String) : DispatchTarget :=
  let ti := env.localNames.contains name
  let mi := env.mcpNames.contains name
  if !ti && !mi then .noTool
  else if mi then
    if cfgHasCommand env.serversCfg name then .mcpSubprocess
    else .mcpExecuteTool
  else .localTool

/-- The oracles for the three execution mechanisms: the local session tool
invoker (may raise), the subprocess runner (its failures are themselves
converted to result strings, lines 304-316) and the pool's `execute_tool`
(total, returns error strings itself). -/
structure InvokeOracles where
  localInvoke : String → String → Except String String
  subprocessRun : String → Except String String
  mcpExecute : String → String → String

/-- The `tool_response` value recorded for one tool call (lines 279-364):
an `Option` mirrors the `if tool_response["tool_response"] is not None`
guard of line 379 — every branch of the source in fact produces a string. -/
def toolCallResponse (env : ToolEnv) (oracles : InvokeOracles)
    (c : ToolCall) : Option String :=
  match dispatchTarget env c.name with
  | .noTool => some ("there is not a tool named " ++ c.name)
  | .mcpSubprocess =>
    some (match oracles.subprocessRun c.name with
      | .ok out => out
      | .error e => "tool invoke error: " ++ e)
  | .mcpExecuteTool => some (oracles.mcpExecute c.name c.args)
  | .localTool =>
    some (match oracles.localInvoke c.name c.args with
      | .ok r => r
      | .error e => "tool invoke error: " ++ e)

/-- A `ToolPromptMessage` appended to `current_thoughts` (lines 380-386). -/
structure ToolPromptMsg where
  content : String
  toolCallId : String
  name : String
deriving DecidableEq, Repr

/-- The tool-result messages appended to the conversation state by the
per-round tool loop (lines 262-386), in call order: one message per call
whenever its recorded response is not `None`. -/
def toolLoopMessages (env : ToolEnv) (oracles : InvokeOracles) :
    List ToolCall → List ToolPromptMsg
  | [] => []
  | c :: rest =>
    (match toolCallResponse env oracles c with
      | some r => [⟨r, c.callId, c.name⟩]
      | none => []) ++ toolLoopMessages env oracles rest

/-! ### The round loop (lines 107-117, 409) -/

/-- The loop body, fuelled: `loopRun oracle fuel step fcs maxSteps` returns
the number of completed rounds.  Mirrors
`while function_call_state and iteration_step <= max_iteration_steps`
with `function_call_state := (extracted tool calls ≠ [])` per round and
`iteration_step += 1` at line 409.  Fuel `maxSteps + 1` always suffices
because `step` only grows. -/
def loopRun (oracle : Nat → List ToolCall) :
    Nat → Nat → Bool → Nat → Nat
  | 0, step, _, _ => step - 1
  | fuel + 1, step, fcs, maxSteps =>
    if fcs && decide (step ≤ maxSteps) then
      loopRun oracle fuel (step + 1) (!(oracle step).isEmpty) maxSteps
    else step - 1

/-- Number of rounds the orchestration loop executes for a given per-round
tool-call oracle and `maximum_iterations` bound. -/
def roundsExecuted (oracle : Nat → List ToolCall) (maxSteps : Nat) : Nat :=
  loopRun oracle (maxSteps + 1) 1 true maxSteps

/-! ### Tool schemas offered per round (lines 129-132)

`prompt_messages_tools` starts as the merged local + MCP schema list and is
reassigned to `[]` at the start of round `iteration_step` when
`iteration_step == max_iteration_steps and max_iteration_steps > 1`;
the assignment persists into the model invocation of that round. -/

def toolsRoundUpdate (maxSteps round : Nat) (tools : List String) : List String :=
  if round = maxSteps && 1 < maxSteps then [] else tools

/-- The tool-schema list passed to the model invocation of round `r`
(rounds are 1-based; index 0 is the initial merged list). -/
def toolsAtRound (initTools : List String) (maxSteps : Nat) : Nat → List String
  | 0 => initTools
  | r + 1 => toolsRoundUpdate maxSteps (r + 1) (toolsAtRound initTools maxSteps r)

/-! ## Plain-text search helper (used to state what an error message mentions) -/

/-- Does `needle` occur at the head of `hay`? -/
def charsLeadWith : List Char → List Char → Bool
  | [], _ => true
  | _ :: _, [] => false
  | a :: as, b :: bs => a == b && charsLeadWith as bs

/-- Does the text `hay` mention `needle` anywhere? -/
def textHas (hay needle : String) : Bool :=
  (List.range (hay.toList.length + 1)).any fun i =>
    charsLeadWith needle.toList (hay.toList.drop i)

/-! ## Helper lemmas -/

/-- A drain pass that skips the non-matching prefix `before`, finds the
match `m` and leaves behind the tail followed by everything requeued. -/
theorem drainAux_first_match (mid : Nat) (m : JMsg) :
    ∀ (before acc after : List JMsg),
      (∀ x ∈ before, matchesId x mid = false) → matchesId m mid = true →
      drainAux mid (before ++ m :: after) acc = some (m, after ++ acc ++ before) := by
  intro before
  induction before with
  | nil =>
    intro acc after _ hm
    simp [drainAux, hm]
  | cons x xs ih =>
    intro acc after h hm
    have hx : matchesId x mid = false := h x (by simp)
    have hxs : ∀ y ∈ xs, matchesId y mid = false := fun y hy => h y (by simp [hy])
    simp only [List.cons_append, drainAux, hx, Bool.false_eq_true, if_false, List.append_eq]
    rw [ih (acc ++ [x]) after hxs hm]
    simp

/-- Fact that `toolCallResponse` is a string in every dispatch branch. -/
theorem toolCallResponse_isSome (env : ToolEnv) (oracles : InvokeOracles)
    (c : ToolCall) : (toolCallResponse env oracles c).isSome = true := by
  unfold toolCallResponse
  cases dispatchTarget env c.name <;> simp

/-- A loop whose `function_call_state` is `False` stops at once. -/
theorem loopRun_false (oracle : Nat → List ToolCall) (fuel step maxSteps : Nat) :
    loopRun oracle fuel step false maxSteps = step - 1 := by
  cases fuel <;> simp [loopRun]

/-- If every round from `step` up to `N` produces tool calls and round `N`
produces none, the loop runs exactly through round `N`. -/
theorem loopRun_reach (oracle : Nat → List ToolCall) (N maxSteps : Nat)
    (hNmax : N ≤ maxSteps) (hN : (oracle N).isEmpty = true) :
    ∀ fuel step, step ≤ N → (∀ k, step ≤ k → k < N → (oracle k).isEmpty = false) →
      N - step < fuel → loopRun oracle fuel step true maxSteps = N := by
  intro fuel
  induction fuel with
  | zero => intro step _ _ hfuel; omega
  | succ f ih =>
    intro step hstep hprev hfuel
    have hcond : step ≤ maxSteps := le_trans hstep hNmax
    simp only [loopRun, true_and, Bool.true_and, decide_eq_true_eq, if_pos hcond]
    rcases Nat.lt_or_ge step N with hlt | hge
    · have hne : (oracle step).isEmpty = false := hprev step le_rfl hlt
      rw [hne]
      have := ih (step + 1) hlt (fun k hk hk' => hprev k (by omega) hk') (by omega)
      simpa using this
    · have hsN : step = N := le_antisymm hstep hge
      subst hsN
      rw [hN]
      simpa using loopRun_false oracle f (step + 1) maxSteps

/-- Tool-schema list before the final round: unchanged. -/
theorem toolsAtRound_lt (initTools : List String) (maxSteps : Nat) :
    ∀ r, r < maxSteps → toolsAtRound initTools maxSteps r = initTools := by
  intro r
  induction r with
  | zero => intro _; rfl
  | succ n ih =>
    intro hlt
    have hne : ¬ (n + 1 = maxSteps) := by omega
    simp [toolsAtRound, toolsRoundUpdate, hne, ih (by omega)]

/-- The pool-level close collects exactly the per-client failures and never
propagates one. -/
theorem mcpClientsClose_eq (closes : List (Except String Unit)) :
    mcpClientsClose closes
      = closes.filterMap fun c => match c with
          | .ok _ => none
          | .error e => some e := by
  induction closes with
  | nil => rfl
  | cons c rest ih =>
    cases c with
    | ok u => cases u; simp [mcpClientsClose, ih, List.filterMap]
    | error e => simp [mcpClientsClose, ih, List.filterMap]

/-- Ids assigned by successfully completed SSE-client operations starting
from counter `c` are consecutive from `c`. -/
theorem sseTrace_ids (ops : List RpcOp) :
    ∀ c, (sseTrace c ops).filterMap JsonRpcReq.reqId = List.range' c ops.length := by
  induction ops with
  | nil => intro c; rfl
  | cons op ops ih =>
    intro c
    cases op <;>
      simp [sseTrace, sseOpRequests, List.filterMap_cons, ih, List.range'_succ, List.length_cons]

/-! ## Claim theorems -/

/-- C1: the push-stream client does NOT reliably fail closed on an endpoint
announcement from a foreign origin.  The listener sets `_connected` (substep
2) before it performs the origin check (substep 3), so the polling
`connect()` can observe the state between those writes: at substep 2 it sees
`_error_event` clear and `_connected` set and returns normally, after which
`send_message` happily POSTs to the foreign endpoint (and a message without
an id then returns successfully).  Only an observation after substep 3
raises.  Concretely, for a connection to `http://server.example/sse` whose
`endpoint` event announces `http://attacker.example/messages`: the origin
mismatches, yet the substep-2 observation returns from `connect()` normally
and `send_message` targets the attacker origin. -/
theorem c1_origin_mismatch_fail_open :
    originMismatch ⟨"http", "server.example", "/sse"⟩
      ⟨"http", "attacker.example", "/messages"⟩ = true ∧
    connectObserve (endpointSub ⟨"http", "server.example", "/sse"⟩
      (.absolute ⟨"http", "attacker.example", "/messages"⟩) initListenerState 2)
      = ConnectObs.returnedOk ∧
    sendMessageTarget (endpointSub ⟨"http", "server.example", "/sse"⟩
      (.absolute ⟨"http", "attacker.example", "/messages"⟩) initListenerState 2)
      = Except.ok ⟨"http", "attacker.example", "/messages"⟩ ∧
    connectObserve (endpointSub ⟨"http", "server.example", "/sse"⟩
      (.absolute ⟨"http", "attacker.example", "/messages"⟩) initListenerState 3)
      = ConnectObs.raised := by
  refine ⟨by decide, by decide, rfl, by decide⟩

/-- C4 counterexample: the drain pass does NOT preserve the relative order
of non-matching messages.  Waiting on id 3 with queue `[id 1, id 3, id 5]`,
the message with id 1 is popped and requeued at the back, so the queue left
behind is `[id 5, id 1]` — id 5 now precedes id 1, the opposite of their
original relative order `[id 1, id 5]`. -/
theorem c4_counterexample :
    drainQueue [⟨some 1, "m1"⟩, ⟨some 3, "m3"⟩, ⟨some 5, "m5"⟩] 3
      = some (⟨some 3, "m3"⟩, [⟨some 5, "m5"⟩, ⟨some 1, "m1"⟩]) ∧
    ([⟨some 5, "m5"⟩, ⟨some 1, "m1"⟩] : List JMsg)
      ≠ [⟨some 1, "m1"⟩, ⟨some 5, "m5"⟩] := by
  refine ⟨rfl, by decide⟩

/-- C4 (amended): a queued response whose id does not match the awaited
request id is requeued intact — no message is lost — and is later returned
when a caller waits on its id; however, one drain pass rotates the queue
(messages examined before the match are requeued behind the ones after it)
rather than preserving the relative order of non-matching messages.
`before`/`after` surround the first match for the awaited id `mid`; the
queue left behind is exactly `after ++ before`, and a later wait on the id
`mid'` of any message in it returns that message in turn. -/
theorem c4_requeue_rotation (mid mid' : Nat) (m m' : JMsg)
    (before after b' a' : List JMsg)
    (hb : ∀ x ∈ before, matchesId x mid = false)
    (hm : matchesId m mid = true)
    (hsplit : after ++ before = b' ++ m' :: a')
    (hb' : ∀ x ∈ b', matchesId x mid' = false)
    (hm' : matchesId m' mid' = true) :
    drainQueue (before ++ m :: after) mid = some (m, after ++ before) ∧
    drainQueue (after ++ before) mid' = some (m', a' ++ b') := by
  constructor
  · have := drainAux_first_match mid m before [] after hb hm
    simpa [drainQueue] using this
  · have := drainAux_first_match mid' m' b' [] a' hb' hm'
    rw [drainQueue, hsplit]
    simpa using this

/-- C4 witness: queue `[id 1, id 3, id 5]`, waiting on 3 then on 5. -/
theorem c4_requeue_rotation_witness :
    drainQueue [⟨some 1, "m1"⟩, ⟨some 3, "m3"⟩, ⟨some 5, "m5"⟩] 3
      = some (⟨some 3, "m3"⟩, [⟨some 5, "m5"⟩, ⟨some 1, "m1"⟩]) ∧
    drainQueue [⟨some 5, "m5"⟩, ⟨some 1, "m1"⟩] 5
      = some (⟨some 5, "m5"⟩, [⟨some 1, "m1"⟩]) := by
  have := c4_requeue_rotation 3 5 ⟨some 3, "m3"⟩ ⟨some 5, "m5"⟩
    [⟨some 1, "m1"⟩] [⟨some 5, "m5"⟩] [] [⟨some 1, "m1"⟩]
    (by decide) (by decide) (by decide) (by decide) (by decide)
  simpa using this

/-- C5 counterexample: the streamable-HTTP client reuses request ids.  Two
successive `call_tool` requests both carry id 2, and a `list_tools` after a
`call_tool` carries id 1 after id 2, so the assigned ids are neither unique
nor monotonically increasing. -/
theorem c5_counterexample :
    streamableAssignedIds [RpcOp.callToolOp, RpcOp.callToolOp] = [2, 2] ∧
    ¬ (streamableAssignedIds [RpcOp.callToolOp, RpcOp.callToolOp]).Nodup ∧
    streamableAssignedIds [RpcOp.callToolOp, RpcOp.listToolsOp] = [2, 1] ∧
    ¬ (streamableAssignedIds [RpcOp.callToolOp, RpcOp.listToolsOp]).Pairwise (· < ·) := by
  refine ⟨rfl, by decide, rfl, by decide⟩

/-- C5 (amended): the SSE client assigns strictly increasing, never-reused
ids across successfully completed requests (one fresh id per id-bearing
request, starting at 0), while the streamable-HTTP client uses the fixed
per-method ids 0 (`initialize`), 1 (`tools/list`) and 2 (`tools/call`),
reusing them across repeated requests — e.g. two `call_tool` requests both
carry id 2. -/
theorem c5_sse_monotonic_streamable_reuse (ops : List RpcOp) :
    (sseAssignedIds ops).Pairwise (· < ·) ∧
    (sseAssignedIds ops).Nodup ∧
    streamableAssignedIds [RpcOp.callToolOp, RpcOp.callToolOp] = [2, 2] := by
  have h : sseAssignedIds ops = List.range' 0 ops.length := sseTrace_ids ops 0
  refine ⟨?_, ?_, rfl⟩
  · rw [h]; exact List.pairwise_lt_range' 0 ops.length
  · rw [h]; exact List.nodup_range' 0 ops.length

/-- C6: for every round `N` within the iteration bound, if round `N`
produces zero tool calls (and rounds 1..N-1 each produced at least one, so
that round `N` is reached), the loop terminates after round `N`: exactly
`N` rounds execute and no round `N + 1` occurs. -/
theorem c6_zero_tool_calls_terminates (oracle : Nat → List ToolCall)
    (N maxSteps : Nat) (h1 : 1 ≤ N) (h2 : N ≤ maxSteps)
    (hprev : ∀ k, 1 ≤ k → k < N → (oracle k).isEmpty = false)
    (hN : (oracle N).isEmpty = true) :
    roundsExecuted oracle maxSteps = N := by
  unfold roundsExecuted
  exact loopRun_reach oracle N maxSteps h2 hN (maxSteps + 1) 1 h1 hprev (by omega)

/-- C6 witness: with a model that calls one tool in round 1 and none in
round 2, a 3-round budget executes exactly 2 rounds. -/
theorem c6_zero_tool_calls_terminates_witness :
    roundsExecuted (fun k => if k = 1 then [⟨"id1", "t", "args"⟩] else []) 3 = 2 := by
  refine c6_zero_tool_calls_terminates _ 2 3 (by decide) (by decide) ?_ rfl
  intro k hk hk'
  have : k = 1 := by omega
  subst this
  rfl

/-- C7: the tool-schema list passed to the model on the last allowed round
is empty when more than one round is allowed, but when the maximum round
count is 1, the initial (merged) tool schemas are still offered; rounds
strictly before the last keep the full list. -/
theorem c7_last_round_withholds_tools (initTools : List String) (maxSteps : Nat) :
    (1 < maxSteps → toolsAtRound initTools maxSteps maxSteps = []) ∧
    toolsAtRound initTools 1 1 = initTools ∧
    (∀ r, r < maxSteps → toolsAtRound initTools maxSteps r = initTools) := by
  refine ⟨?_, ?_, toolsAtRound_lt initTools maxSteps⟩
  · intro h
    obtain ⟨m, rfl⟩ : ∃ m, maxSteps = m + 1 := ⟨maxSteps - 1, by omega⟩
    simp [toolsAtRound, toolsRoundUpdate, h]
  · simp [toolsAtRound, toolsRoundUpdate]

/-- C7 witness: with two tools and a 2-round budget, round 2 offers no
tools; with a 1-round budget, round 1 still offers them. -/
theorem c7_last_round_withholds_tools_witness :
    toolsAtRound ["a", "b"] 2 2 = [] ∧ toolsAtRound ["a", "b"] 1 1 = ["a", "b"] :=
  ⟨(c7_last_round_withholds_tools ["a", "b"] 2).1 (by decide),
   (c7_last_round_withholds_tools ["a", "b"] 1).2.1⟩

/-- C2 counterexample: a tool call whose name matches an MCP-catalog entry
and whose name is also a servers-config key carrying a `"command"` field is
dispatched to a local subprocess — a third execution mechanism that is
neither the session tool invoker nor the Client Pool's `execute_tool`. -/
theorem c2_counterexample :
    dispatchTarget ⟨[], ["runner"], [("runner", true)]⟩ "runner"
      = DispatchTarget.mcpSubprocess ∧
    DispatchTarget.mcpSubprocess ≠ DispatchTarget.localTool ∧
    DispatchTarget.mcpSubprocess ≠ DispatchTarget.mcpExecuteTool ∧
    DispatchTarget.mcpSubprocess ≠ DispatchTarget.noTool := by
  refine ⟨rfl, by decide, by decide, by decide⟩

/-- C2 (amended): a tool call is dispatched to the local tool registry, to
the Client Pool's `execute_tool`, or — exactly when its name is in the MCP
catalog and the servers config holds an entry of that name with a
`"command"` field — to a local subprocess; a name in neither registry gets
the synthetic error response instead. -/
theorem c2_dispatch_characterization (env : ToolEnv) (name : String) :
    (dispatchTarget env name = DispatchTarget.mcpSubprocess ↔
      env.mcpNames.contains name = true ∧ cfgHasCommand env.serversCfg name = true) ∧
    (cfgHasCommand env.serversCfg name = false →
      dispatchTarget env name = DispatchTarget.localTool ∨
      dispatchTarget env name = DispatchTarget.mcpExecuteTool ∨
      dispatchTarget env name = DispatchTarget.noTool) := by
  unfold dispatchTarget
  cases hmi : env.mcpNames.contains name <;>
    cases hti : env.localNames.contains name <;>
      cases hc : cfgHasCommand env.serversCfg name <;>
        simp [hmi, hti, hc]

/-- C2 witness: without a `"command"` config the claim's sanctioned targets
are the only ones; with one, the subprocess target is taken. -/
theorem c2_dispatch_characterization_witness :
    dispatchTarget ⟨[], ["runner"], [("runner", true)]⟩ "runner"
      = DispatchTarget.mcpSubprocess ∧
    (dispatchTarget ⟨["local1"], [], []⟩ "local1" = DispatchTarget.localTool ∨
     dispatchTarget ⟨["local1"], [], []⟩ "local1" = DispatchTarget.mcpExecuteTool ∨
     dispatchTarget ⟨["local1"], [], []⟩ "local1" = DispatchTarget.noTool) :=
  ⟨(c2_dispatch_characterization ⟨[], ["runner"], [("runner", true)]⟩ "runner").1.mpr
     ⟨rfl, rfl⟩,
   (c2_dispatch_characterization ⟨["local1"], [], []⟩ "local1").2 rfl⟩

/-- C8 counterexample: a name present in both the local tool registry and
the MCP catalog is dispatched to the MCP path (`execute_tool`), not to the
local tool — the MCP catalog, not the local registry, wins the tie. -/
theorem c8_counterexample :
    dispatchTarget ⟨["dup"], ["dup"], []⟩ "dup" = DispatchTarget.mcpExecuteTool ∧
    dispatchTarget ⟨["dup"], ["dup"], []⟩ "dup" ≠ DispatchTarget.localTool := by
  refine ⟨rfl, by decide⟩

/-- C8 (amended): name resolution consults both registries, but the MCP
catalog wins a tie: the local tool is invoked only when the name is absent
from the MCP catalog; a name in the MCP catalog never dispatches to the
local tool; and a name matching neither yields the synthetic error
ToolResult `there is not a tool named X` while the round continues with the
remaining calls. -/
theorem c8_resolution_order (env : ToolEnv) (oracles : InvokeOracles)
    (name : String) (c : ToolCall) (rest : List ToolCall) :
    (env.mcpNames.contains name = true →
      dispatchTarget env name ≠ DispatchTarget.localTool) ∧
    (env.mcpNames.contains name = false → env.localNames.contains name = true →
      dispatchTarget env name = DispatchTarget.localTool) ∧
    (env.localNames.contains c.name = false → env.mcpNames.contains c.name = false →
      toolLoopMessages env oracles (c :: rest)
        = ⟨"there is not a tool named " ++ c.name, c.callId, c.name⟩
            :: toolLoopMessages env oracles rest) := by
  refine ⟨?_, ?_, ?_⟩
  · intro hmi
    have hmi' : name ∈ env.mcpNames := by simpa using hmi
    unfold dispatchTarget
    by_cases hti : name ∈ env.localNames <;>
      cases hc : cfgHasCommand env.serversCfg name <;> simp [hmi', hti, hc]
  · intro hmi hti
    have hmi' : name ∉ env.mcpNames := by simpa using hmi
    have hti' : name ∈ env.localNames := by simpa using hti
    unfold dispatchTarget
    simp [hmi', hti']
  · intro hti hmi
    have hmi' : c.name ∉ env.mcpNames := by simpa using hmi
    have hti' : c.name ∉ env.localNames := by simpa using hti
    simp [toolLoopMessages, toolCallResponse, dispatchTarget, hti', hmi']

/-- C8 witness: a name only in the local registry runs locally; an unknown
name produces the synthetic error message and the loop moves on. -/
theorem c8_resolution_order_witness :
    dispatchTarget ⟨["loc"], [], []⟩ "loc" = DispatchTarget.localTool ∧
    toolLoopMessages ⟨["loc"], [], []⟩
        ⟨fun _ _ => .ok "out", fun _ => .ok "out", fun _ _ => "out"⟩
        [⟨"cid", "ghost", "a"⟩]
      = [⟨"there is not a tool named ghost", "cid", "ghost"⟩] := by
  refine ⟨?_, ?_⟩
  · exact (c8_resolution_order ⟨["loc"], [], []⟩
      ⟨fun _ _ => .ok "out", fun _ => .ok "out", fun _ _ => "out"⟩
      "loc" ⟨"cid", "ghost", "a"⟩ []).2.1 rfl rfl
  · exact (c8_resolution_order ⟨["loc"], [], []⟩
      ⟨fun _ _ => .ok "out", fun _ => .ok "out", fun _ _ => "out"⟩
      "loc" ⟨"cid", "ghost", "a"⟩ []).2.2 rfl rfl

/-- C3: in every round, the tool loop appends exactly one tool-result
message per extracted tool call, in call order: the appended messages' call
ids are exactly the extracted calls' ids (so the counts agree, every id is
covered, and unknown tools or raising invocations still get their error
placeholder, since every dispatch branch records a string response). -/
theorem c3_one_result_per_call (env : ToolEnv) (oracles : InvokeOracles)
    (calls : List ToolCall) :
    (toolLoopMessages env oracles calls).map ToolPromptMsg.toolCallId
      = calls.map ToolCall.callId ∧
    (toolLoopMessages env oracles calls).length = calls.length ∧
    ∀ i, ((toolLoopMessages env oracles calls).map ToolPromptMsg.toolCallId).count i
      = (calls.map ToolCall.callId).count i := by
  have hmap : (toolLoopMessages env oracles calls).map ToolPromptMsg.toolCallId
      = calls.map ToolCall.callId := by
    induction calls with
    | nil => rfl
    | cons c rest ih =>
      have hs := toolCallResponse_isSome env oracles c
      obtain ⟨r, hr⟩ := Option.isSome_iff_exists.mp hs
      simp [toolLoopMessages, hr, ih]
  refine ⟨hmap, ?_, ?_⟩
  · have := congrArg List.length hmap
    simpa using this
  · intro i
    rw [hmap]

/-- C9 counterexample: `close()` on an SSE client whose underlying HTTP
client fails to close does NOT return normally — the `except` handler
re-raises the failure wrapped in a new `Exception` instead of logging it. -/
theorem c9_counterexample :
    mcpSseClose "server1" (some false) (Except.error "close failure")
      = Except.error
          "server1 - MCP Server connection close failed: close failure" ∧
    mcpSseClose "server1" (some false) (Except.error "close failure")
      ≠ Except.ok () := by
  refine ⟨rfl, ?_⟩
  intro h
  exact Except.noConfusion h

/-- C9 (amended): `close()` is safe to call even if `connect()` never
completed (the listener-thread state never affects the outcome, and a
clean underlying close always returns normally), but a teardown failure is
wrapped and re-raised as an `Exception` rather than logged; it is the
Client Pool's `close()` that catches each client's failure, records it and
continues, so pool-level closing never propagates and reaches every owned
client. -/
theorem c9_close_propagates (name e : String) (t t' : Option Bool)
    (closes : List (Except String Unit)) :
    mcpSseClose name t (Except.ok ()) = Except.ok () ∧
    mcpSseClose name t (Except.error e) = mcpSseClose name t' (Except.error e) ∧
    mcpSseClose name t (Except.error e)
      = Except.error (name ++ " - MCP Server connection close failed: " ++ e) ∧
    mcpStreamableClose name (Except.error e)
      = Except.error (name ++ " - MCP Server connection close failed: " ++ e) ∧
    mcpClientsClose closes
      = closes.filterMap (fun c => match c with
          | .ok _ => none
          | .error e' => some e') := by
  refine ⟨?_, rfl, rfl, rfl, mcpClientsClose_eq closes⟩
  rcases t with _ | b
  · rfl
  · cases b <;> rfl

/-- C10 counterexample: `execute_tool` on a tool name no client owns
returns the stringified `AttributeError` from calling `call_tool` on
`None` — a message that mentions neither "not found" nor the requested tool
name, i.e. an unrelated error rather than a clear tool-not-found
condition. -/
theorem c10_counterexample :
    executeTool [] [] (fun _ _ => Except.ok "r") "mytool"
      = "Error executing tool: " ++ noneTypeAttrMsg ∧
    textHas (executeTool [] [] (fun _ _ => Except.ok "r") "mytool")
      "not found" = false ∧
    textHas (executeTool [] [] (fun _ _ => Except.ok "r") "mytool")
      "mytool" = false := by
  refine ⟨rfl, by decide, by decide⟩

/-- C10 (amended): for a tool name no owned client's catalog contains,
`execute_tool` does surface an error string to its caller (never silently
doing nothing) — but the string is the generic wrapped `NoneType` attribute
error, the same for every unknown tool, not a clear tool-not-found
condition. -/
theorem c10_unknown_tool_error (tools : List (String × List String))
    (clientNames : List String)
    (callTool : String → String → Except String String) (toolName : String)
    (h : lookupOwner tools clientNames toolName = none) :
    executeTool tools clientNames callTool toolName
      = "Error executing tool: " ++ noneTypeAttrMsg ∧
    textHas (executeTool tools clientNames callTool toolName)
      "Error executing tool" = true := by
  have he : executeTool tools clientNames callTool toolName
      = "Error executing tool: " ++ noneTypeAttrMsg := by
    unfold executeTool
    rw [h]
  refine ⟨he, ?_⟩
  rw [he]
  decide

/-- C10 witness: an empty pool owns no tool, so any name is unknown. -/
theorem c10_unknown_tool_error_witness :
    executeTool [] [] (fun _ _ => Except.ok "r") "ghost"
      = "Error executing tool: " ++ noneTypeAttrMsg ∧
    textHas (executeTool [] [] (fun _ _ => Except.ok "r") "ghost")
      "Error executing tool" = true :=
  c10_unknown_tool_error [] [] (fun _ _ => Except.ok "r") "ghost" rfl
